import Mathlib

/-!
Shallow embedding of the translation/transcription pipeline of
`cambai-gemma-rs` (source files `src/asr.rs`, `src/gemma.rs`, `src/ui.rs`).

Strings are modelled as `List Char` (Rust `String` is a sequence of unicode
scalar values, exactly what `List Char` is).  Effects of the outside world
(filesystem, subprocesses, HTTP endpoints) are passed in as explicit
parameters: the pure decision logic of the Rust functions is translated
verbatim.
-/

namespace CambGemma

/-- Rust `char::is_whitespace`: the unicode `White_Space` property.  The
exact code-point set, from the Unicode data tables used by Rust. -/
def isRustWhitespace (c : Char) : Bool :=
  (0x09 ≤ c.toNat && c.toNat ≤ 0x0D) || c.toNat = 0x20 || c.toNat = 0x85 ||
  c.toNat = 0xA0 || c.toNat = 0x1680 ||
  (0x2000 ≤ c.toNat && c.toNat ≤ 0x200A) ||
  c.toNat = 0x2028 || c.toNat = 0x2029 || c.toNat = 0x202F ||
  c.toNat = 0x205F || c.toNat = 0x3000

/-- Rust `str::trim`: remove leading and trailing whitespace. -/
def rustTrim (s : List Char) : List Char :=
  ((s.dropWhile isRustWhitespace).reverse.dropWhile isRustWhitespace).reverse

/-- Rust `str::to_lowercase`, restricted to the Basic Latin and Latin-1
ranges, which cover every character this program's dictionaries and test
phrases use.  (Rust's full unicode case mapping agrees with this on those
ranges.) -/
def rustToLowerChar (c : Char) : Char :=
  if 0x41 ≤ c.toNat ∧ c.toNat ≤ 0x5A then Char.ofNat (c.toNat + 0x20)
  else if (0xC0 ≤ c.toNat ∧ c.toNat ≤ 0xDE) ∧ c.toNat ≠ 0xD7 then
    Char.ofNat (c.toNat + 0x20)
  else c

/-- Rust `String::to_lowercase` on a whole string. -/
def rustToLower (s : List Char) : List Char := s.map rustToLowerChar

/-- The scrutinee `input.to_lowercase().trim()` of the fallback `match` in
`gemma.rs::translate`. -/
def lowerTrim (s : List Char) : List Char := rustTrim (rustToLower s)

/-- Convert a Lean string literal to the `List Char` model. -/
def strL (s : String) : List Char := s.data

/-! ## gemma.rs -/

/-- Rust struct `gemma.rs::GemmaConfig`. -/
structure GemmaConfig where
  model_path : String
  n_ctx : Nat

/-- Rust enum `gemma.rs::Direction`. -/
inductive Direction where
  | EnToEs
  | EsToEn
deriving DecidableEq

/-- Rust function `gemma.rs::Direction::from_str`. -/
def Direction.from_str (s : String) : Option Direction :=
  if s = "en-es" then some Direction.EnToEs
  else if s = "es-en" then some Direction.EsToEn
  else none

/-- The error type of `gemma.rs::translate`: the only constructed error is
the model-not-found `anyhow!` message, which names the model path. -/
inductive GemmaError where
  | modelNotFound (path : String)
deriving DecidableEq

/-- The Spanish-to-English arms of the fallback `match` in
`gemma.rs::translate`, in source order; a Rust `match` with `|`-patterns is
an ordered first-match lookup, so each pattern becomes one entry. -/
def esEnTable : List (List Char × List Char) :=
  [ (strL "hola", strL "Hello"),
    (strL "adiós", strL "Goodbye"), (strL "adios", strL "Goodbye"),
    (strL "gracias", strL "Thank you"),
    (strL "por favor", strL "Please"),
    (strL "lo siento", strL "I\x27m sorry"),
    (strL "sí", strL "Yes"), (strL "si", strL "Yes"),
    (strL "no", strL "No"),
    (strL "buenos días", strL "Good morning"),
    (strL "buenos dias", strL "Good morning"),
    (strL "buenas noches", strL "Good night"),
    (strL "¿cómo estás?", strL "How are you?"),
    (strL "como estas", strL "How are you?") ]

/-- The English-to-Spanish arms of the fallback `match` in
`gemma.rs::translate`, in source order. -/
def enEsTable : List (List Char × List Char) :=
  [ (strL "hello", strL "Hola"), (strL "hi", strL "Hola"),
    (strL "goodbye", strL "Adiós"), (strL "bye", strL "Adiós"),
    (strL "thank you", strL "Gracias"), (strL "thanks", strL "Gracias"),
    (strL "please", strL "Por favor"),
    (strL "sorry", strL "Lo siento"), (strL "i\x27m sorry", strL "Lo siento"),
    (strL "yes", strL "Sí"),
    (strL "no", strL "No"),
    (strL "good morning", strL "Buenos días"),
    (strL "good night", strL "Buenas noches"),
    (strL "how are you?", strL "¿Cómo estás?"),
    (strL "how are you", strL "¿Cómo estás?") ]

/-- First-match lookup in an ordered table, the behaviour of the Rust
`match` arms. -/
def lookupTable : List (List Char × List Char) → List Char → Option (List Char)
  | [], _ => none
  | (k, v) :: rest, key => if key = k then some v else lookupTable rest key

/-- Table and placeholder tag selected by direction
(`gemma.rs::translate`, fallback branch). -/
def fallbackTranslate (dir : Direction) (input : List Char) : List Char :=
  match dir with
  | Direction.EsToEn =>
    match lookupTable esEnTable (lowerTrim input) with
    | some v => v
    | none => strL "[Translation] " ++ input
  | Direction.EnToEs =>
    match lookupTable enEsTable (lowerTrim input) with
    | some v => v
    | none => strL "[Traducción] " ++ input

/-- Rust function `gemma.rs::translate`.  The two world effects are explicit parameters:
`modelExists` is `Path::new(&cfg.model_path).exists()`, and `cliResult` is
the outcome of `try_llama_cpp_cli(&cfg.model_path, &prompt, cfg.n_ctx)`
(its own decision logic is modelled separately below).  Everything else is
the Rust control flow, line for line. -/
def translate (cfg : GemmaConfig) (modelExists : Bool)
    (cliResult : Except Unit (List Char)) (dir : Direction)
    (input : List Char) : Except GemmaError (List Char) :=
  if (rustTrim input).isEmpty then Except.ok []
  else if modelExists = false then
    Except.error (GemmaError.modelNotFound cfg.model_path)
  else
    match cliResult with
    | Except.ok output =>
      let result := rustTrim output
      if result.isEmpty then Except.ok (fallbackTranslate dir input)
      else Except.ok result
    | Except.error _ => Except.ok (fallbackTranslate dir input)

/-- Boolean prefix test on the `List Char` model (Rust slice pattern
matching used by `str::find`). -/
def startsWithL : List Char → List Char → Bool
  | [], _ => true
  | _ :: _, [] => false
  | p :: ps, c :: cs => p = c && startsWithL ps cs

/-- Rust `str::find(pattern)`: index of the first occurrence of `pat` in
`s`, or `none`. -/
def findSub (pat : List Char) : List Char → Option Nat
  | [] => if pat.isEmpty then some 0 else none
  | c :: rest =>
    if startsWithL pat (c :: rest) then some 0
    else (findSub pat rest).map (· + 1)

/-- The literal turn marker `<start_of_turn>model` searched for in the
subprocess stdout (`gemma.rs::try_llama_cpp_cli`). -/
def gemmaMarker : List Char := strL "<start_of_turn>model"

/-- The stdout-scraping logic of `gemma.rs::try_llama_cpp_cli` applied to
the stdout of one successfully exiting subprocess: find the marker, find
the next newline from the marker position on, trim what follows it, and
accept only a non-empty result. -/
def extract_model_output (stdout : List Char) : Option (List Char) :=
  match findSub gemmaMarker stdout with
  | none => none
  | some model_start =>
    match findSub [ '\n' ] (stdout.drop model_start) with
    | none => none
    | some actual_output =>
      let translation := rustTrim (stdout.drop (model_start + actual_output + 1))
      if translation.isEmpty then none else some translation

/-- The candidate executable names tried by `try_llama_cpp_cli`, in source
order. -/
def llamaExecutables : List String := ["llama", "llama-cli", "main", "./llama.cpp/main"]

/-- Outcome of spawning one candidate executable: the spawn itself may
fail (`Command::output()` returns `Err`), the process may exit with a
non-success status, or it exits successfully with some stdout. -/
inductive ExecOutcome where
  | spawnError
  | exitFailure
  | exitSuccess (stdout : List Char)

/-- Rust function `gemma.rs::try_llama_cpp_cli` over the outcomes of the candidate
executables (one outcome per candidate, in order): the first successfully
exiting candidate whose stdout yields a non-empty post-marker extraction
wins; spawn errors, failing exits and failed extractions all fall through
to the next candidate; exhaustion is the `anyhow!` error. -/
def try_llama_cpp_cli : List ExecOutcome → Except Unit (List Char)
  | [] => Except.error ()
  | ExecOutcome.exitSuccess stdout :: rest =>
    match extract_model_output stdout with
    | some t => Except.ok t
    | none => try_llama_cpp_cli rest
  | ExecOutcome.spawnError :: rest => try_llama_cpp_cli rest
  | ExecOutcome.exitFailure :: rest => try_llama_cpp_cli rest

/-! ## asr.rs -/

/-- Error cases of the transcription path (`asr.rs`): the `anyhow!`
messages reduced to their identity.  `emptySpeech` is the
"No speech detected in audio file" error; `noLocalBackend` is the
"No local Whisper API found" error listing the endpoints tried;
`backendFailure` stands for any error propagated with `?` from the
backend call (missing key, request failure, bad status, parse failure). -/
inductive AsrError where
  | emptySpeech
  | noLocalBackend (tried : List String)
  | backendFailure
deriving DecidableEq

/-- The fixed candidate local endpoints of
`asr.rs::call_local_whisper_api`, in source order. -/
def localEndpoints : List String :=
  [ "http://localhost:8000/transcribe",
    "http://localhost:5000/transcribe",
    "http://127.0.0.1:8000/transcribe" ]

/-- What one candidate local endpoint does with the multipart POST:
the connection may fail, the response status may be non-success, the
body may fail to parse as `{text: string}`, or it parses and carries a
text. -/
inductive LocalAttempt where
  | connFail
  | badStatus
  | parseFail
  | success (text : List Char)

/-- Whether an attempt outcome is the accepting case (HTTP success and
successful JSON parse). -/
def LocalAttempt.isSuccess : LocalAttempt → Bool
  | LocalAttempt.success _ => true
  | _ => false

/-- The probe loop of `asr.rs::call_local_whisper_api` over a list of
endpoints, with the behaviour of each endpoint given by `respond`:
return the text of the first accepting endpoint; every failing endpoint
is skipped; exhaustion is the `anyhow!` error naming the endpoint
list. -/
def probeEndpoints (respond : String → LocalAttempt) :
    List String → Except AsrError (List Char)
  | [] => Except.error (AsrError.noLocalBackend localEndpoints)
  | e :: rest =>
    match respond e with
    | LocalAttempt.success t => Except.ok t
    | _ => probeEndpoints respond rest

/-- Rust function `asr.rs::call_local_whisper_api`: probe the fixed endpoint list. -/
def call_local_whisper_api (respond : String → LocalAttempt) :
    Except AsrError (List Char) :=
  probeEndpoints respond localEndpoints

/-- Rust function `asr.rs::transcribe_wav_async` after the WAV read: select the
backend by `cfg.use_local`, propagate its error, and reject a text that
is empty after trimming; a non-empty text is returned as-is.  The two
backend outcomes are explicit parameters (`localResult` is what
`call_local_whisper_api` returned, `hostedResult` what
`call_openai_whisper_api` returned). -/
def transcribe_wav_async (use_local : Bool)
    (localResult hostedResult : Except AsrError (List Char)) :
    Except AsrError (List Char) :=
  match (if use_local then localResult else hostedResult) with
  | Except.error e => Except.error e
  | Except.ok text =>
    if (rustTrim text).isEmpty then Except.error AsrError.emptySpeech
    else Except.ok text

/-! ## ui.rs -/

/-- The history-relevant state of `ui.rs::PerfTracker`.  The sample type
is abstract (`α`): the buffer policy in `stats` never inspects a
`PerfData` value, it only pushes and evicts, and the `f32`/`u64` sample
payloads and the peak counters play no part in the history policy. -/
structure PerfTracker (α : Type) where
  history : List α
  max_history : Nat

/-- The initial tracker built by the `lazy_static` block in `ui.rs`:
empty history, `max_history = 60`. -/
def initialTracker (α : Type) : PerfTracker α :=
  ⟨[], 60⟩

/-- The history update performed by one `/stats` request
(`ui.rs::stats`, the tracker critical section): push the new sample at
the end, then `history.remove(0)` if the length exceeds
`max_history`. -/
def stats_update {α : Type} (t : PerfTracker α) (x : α) : PerfTracker α :=
  let h := t.history ++ [x]
  let h2 := if h.length > t.max_history then h.eraseIdx 0 else h
  ⟨h2, t.max_history⟩

/-- Tracker state after a sequence of `/stats` requests supplying the
given samples in order, starting from the initial tracker. -/
def statsAfter {α : Type} (xs : List α) : PerfTracker α :=
  xs.foldl stats_update (initialTracker α)

/-! ## Helper definitions and lemmas -/

/-- Table selected by direction in the fallback branch of
`gemma.rs::translate`. -/
def fallbackTable : Direction → List (List Char × List Char)
  | Direction.EsToEn => esEnTable
  | Direction.EnToEs => enEsTable

/-- Placeholder tag selected by direction in the fallback branch of
`gemma.rs::translate`. -/
def fallbackTag : Direction → List Char
  | Direction.EsToEn => strL "[Translation] "
  | Direction.EnToEs => strL "[Traducción] "

theorem lookupTable_eq_none_iff (t : List (List Char × List Char)) (k : List Char) :
    lookupTable t k = none ↔ k ∉ t.map Prod.fst := by
  induction t with
  | nil => simp [lookupTable]
  | cons p rest ih =>
    obtain ⟨k', v⟩ := p
    by_cases hk : k = k'
    · subst hk
      simp [lookupTable]
    · simp [lookupTable, hk, ih]

theorem fallbackTranslate_of_lookup_none (dir : Direction) (input : List Char)
    (h : lookupTable (fallbackTable dir) (lowerTrim input) = none) :
    fallbackTranslate dir input = fallbackTag dir ++ input := by
  cases dir <;>
    simp only [fallbackTable] at h <;>
    simp [fallbackTranslate, fallbackTag, h]

theorem fallbackTranslate_of_lookup_some (dir : Direction) (input v : List Char)
    (h : lookupTable (fallbackTable dir) (lowerTrim input) = some v) :
    fallbackTranslate dir input = v := by
  cases dir <;>
    simp only [fallbackTable] at h <;>
    simp [fallbackTranslate, h]

/-! ## Claim theorems -/

/-- C1, counterexample: the claim says a hosted response whose text is
`"  hello world  "` yields the trimmed `"hello world"`; the code returns
the text untrimmed (`asr.rs` line 51 returns `text`, not a trimmed
copy), so the output is `"  hello world  "`, which differs from
`"hello world"`. -/
theorem c1_transcribe_not_trimmed_counterexample :
    transcribe_wav_async false (Except.error AsrError.backendFailure)
        (Except.ok (strL "  hello world  ")) =
      Except.ok (strL "  hello world  ") ∧
    strL "  hello world  " ≠ strL "hello world" := by
  exact ⟨rfl, by decide⟩

/-- C1, amended: for every backend response text, `transcribe` fails with
the empty-speech error when the text trims to empty, and otherwise
returns the text unchanged (with its surrounding whitespace intact),
regardless of which backend produced it. -/
theorem c1_transcribe_returns_untrimmed (use_local : Bool)
    (localResult hostedResult : Except AsrError (List Char)) (text : List Char)
    (hsel : (if use_local then localResult else hostedResult) = Except.ok text) :
    transcribe_wav_async use_local localResult hostedResult =
      (if (rustTrim text).isEmpty then Except.error AsrError.emptySpeech
       else Except.ok text) := by
  unfold transcribe_wav_async
  rw [hsel]

/-- Witness for C1's amended theorem: a hosted response with padded text
comes back untrimmed, and a local whitespace-only response fails with
the empty-speech error. -/
theorem c1_transcribe_returns_untrimmed_witness :
    transcribe_wav_async false (Except.error AsrError.backendFailure)
        (Except.ok (strL "  hello world  ")) =
      Except.ok (strL "  hello world  ") ∧
    transcribe_wav_async true (Except.ok (strL "   "))
        (Except.error AsrError.backendFailure) =
      Except.error AsrError.emptySpeech := by
  constructor
  · rw [c1_transcribe_returns_untrimmed false (Except.error AsrError.backendFailure)
      (Except.ok (strL "  hello world  ")) (strL "  hello world  ") rfl]
    rfl
  · rw [c1_transcribe_returns_untrimmed true (Except.ok (strL "   "))
      (Except.error AsrError.backendFailure) (strL "   ") rfl]
    rfl

/-- C5: empty or whitespace-only input makes `translate` return `Ok("")`
immediately, for every direction, every model path, every model-existence
state and every backend outcome: the model check and the backend are
never consulted. -/
theorem c5_empty_input_short_circuit (cfg : GemmaConfig) (modelExists : Bool)
    (cliResult : Except Unit (List Char)) (dir : Direction) (input : List Char)
    (h : (rustTrim input).isEmpty = true) :
    translate cfg modelExists cliResult dir input = Except.ok [] := by
  unfold translate
  rw [h]
  rfl

/-- Witness for C5: whitespace-only input with a missing model file and a
failing backend still yields `Ok("")`. -/
theorem c5_empty_input_short_circuit_witness :
    translate ⟨"missing.gguf", 2048⟩ false (Except.error ()) Direction.EsToEn
      (strL " \t ") = Except.ok [] :=
  c5_empty_input_short_circuit ⟨"missing.gguf", 2048⟩ false (Except.error ())
    Direction.EsToEn (strL " \t ") (by decide)

/-- C9: the Spanish-to-English fallback table also matches accent-free
and punctuation-free variants — `adios`, `si`, `buenos dias` and
`como estas` map to the same values as `adiós`, `sí`, `buenos días` and
`¿cómo estás?` — while the accented question form is matched only with
its punctuation and the unaccented form only without it. -/
theorem c9_accent_free_variants :
    fallbackTranslate Direction.EsToEn (strL "adios") = strL "Goodbye" ∧
    fallbackTranslate Direction.EsToEn (strL "adiós") = strL "Goodbye" ∧
    fallbackTranslate Direction.EsToEn (strL "si") = strL "Yes" ∧
    fallbackTranslate Direction.EsToEn (strL "sí") = strL "Yes" ∧
    fallbackTranslate Direction.EsToEn (strL "buenos dias") = strL "Good morning" ∧
    fallbackTranslate Direction.EsToEn (strL "buenos días") = strL "Good morning" ∧
    fallbackTranslate Direction.EsToEn (strL "como estas") = strL "How are you?" ∧
    fallbackTranslate Direction.EsToEn (strL "¿cómo estás?") = strL "How are you?" ∧
    fallbackTranslate Direction.EsToEn (strL "cómo estás") =
      strL "[Translation] cómo estás" ∧
    fallbackTranslate Direction.EsToEn (strL "¿como estas?") =
      strL "[Translation] ¿como estas?" :=
  ⟨rfl, rfl, rfl, rfl, rfl, rfl, rfl, rfl, rfl, rfl⟩

/-- C2: for input that is non-empty after trimming, `translate` fails
exactly when the model file does not exist, and then with the
model-not-found error naming the configured path; when the model file
exists it returns `Ok` for every direction and every backend outcome —
backend failures never surface as errors. -/
theorem c2_translate_error_iff_model_missing (cfg : GemmaConfig)
    (modelExists : Bool) (cliResult : Except Unit (List Char))
    (dir : Direction) (input : List Char)
    (hne : (rustTrim input).isEmpty = false) :
    ((∃ e, translate cfg modelExists cliResult dir input = Except.error e) ↔
        modelExists = false) ∧
    (modelExists = false →
      translate cfg modelExists cliResult dir input =
        Except.error (GemmaError.modelNotFound cfg.model_path)) ∧
    (modelExists = true →
      ∃ t, translate cfg modelExists cliResult dir input = Except.ok t) := by
  unfold translate
  rw [hne]
  cases modelExists with
  | false => simp
  | true =>
    cases cliResult with
    | error e => simp
    | ok output =>
      by_cases hout : (rustTrim output).isEmpty = true
      · simp [hout]
      · simp [hout]

/-- Witness for C2: with a missing model file, non-empty input fails with
the model-not-found error naming the path; with the model present and a
failing backend, the same input succeeds. -/
theorem c2_translate_error_iff_model_missing_witness :
    translate ⟨"m.gguf", 2048⟩ false (Except.error ()) Direction.EsToEn
        (strL "hola") =
      Except.error (GemmaError.modelNotFound "m.gguf") ∧
    translate ⟨"m.gguf", 2048⟩ true (Except.error ()) Direction.EsToEn
        (strL "hola") = Except.ok (strL "Hello") := by
  constructor
  · exact (c2_translate_error_iff_model_missing ⟨"m.gguf", 2048⟩ false
      (Except.error ()) Direction.EsToEn (strL "hola") (by decide)).2.1 rfl
  · rfl

/-- C3: any input that is non-empty after trimming and whose
lowercased-and-trimmed form is not a key of the direction's fallback
table yields the direction's literal tag concatenated with the original,
untrimmed input. -/
theorem c3_fallback_miss_tag_concat (dir : Direction) (input : List Char)
    (_hne : (rustTrim input).isEmpty = false)
    (hmiss : lowerTrim input ∉ (fallbackTable dir).map Prod.fst) :
    fallbackTranslate dir input = fallbackTag dir ++ input :=
  fallbackTranslate_of_lookup_none dir input
    ((lookupTable_eq_none_iff _ _).mpr hmiss)

/-- Witness for C3: a table miss in each direction, with untrimmed input
preserved after the tag. -/
theorem c3_fallback_miss_tag_concat_witness :
    fallbackTranslate Direction.EsToEn (strL "hello there") =
      strL "[Translation] hello there" ∧
    fallbackTranslate Direction.EnToEs (strL " see you ") =
      strL "[Traducción]  see you " := by
  constructor
  · rw [c3_fallback_miss_tag_concat Direction.EsToEn (strL "hello there")
      (by decide) (by decide)]
    rfl
  · rw [c3_fallback_miss_tag_concat Direction.EnToEs (strL " see you ")
      (by decide) (by decide)]
    rfl

/-- C4: whenever the lowercased-and-trimmed input hits the direction's
fallback table, the fallback result is the fixed table value — hence the
result is independent of the input's letter case and surrounding
whitespace; in particular, with a present model and no working backend,
`hola` (es-en) yields exactly `Hello` and `How are you?` (en-es) yields
exactly `¿Cómo estás?`. -/
theorem c4_fallback_hit_table_value :
    (∀ (dir : Direction) (s v : List Char),
        lookupTable (fallbackTable dir) (lowerTrim s) = some v →
        fallbackTranslate dir s = v) ∧
    (∀ cfg : GemmaConfig,
        translate cfg true (Except.error ()) Direction.EsToEn (strL "hola") =
          Except.ok (strL "Hello") ∧
        translate cfg true (Except.error ()) Direction.EnToEs
            (strL "How are you?") =
          Except.ok (strL "¿Cómo estás?")) ∧
    fallbackTranslate Direction.EsToEn (strL "  HOLA  ") = strL "Hello" ∧
    fallbackTranslate Direction.EnToEs (strL "HOW ARE YOU?") =
      strL "¿Cómo estás?" := by
  refine ⟨fallbackTranslate_of_lookup_some, ?_, rfl, rfl⟩
  intro cfg
  exact ⟨rfl, rfl⟩

/-- Witness for C4: the general table-hit conjunct applied at a
mixed-case, whitespace-padded phrase. -/
theorem c4_fallback_hit_table_value_witness :
    fallbackTranslate Direction.EsToEn (strL "  gRaCiAs  ") = strL "Thank you" :=
  c4_fallback_hit_table_value.1 Direction.EsToEn (strL "  gRaCiAs  ")
    (strL "Thank you") (by decide)

/-- The tracker history after any sample sequence is exactly the last
(at most) 60 samples, and the capacity field stays 60. -/
theorem statsAfter_history {α : Type} (xs : List α) :
    (statsAfter xs).history = xs.drop (xs.length - 60) ∧
    (statsAfter xs).max_history = 60 := by
  induction xs using List.reverseRecOn with
  | nil => exact ⟨rfl, rfl⟩
  | append_singleton xs x ih =>
    obtain ⟨ih1, ih2⟩ := ih
    have hfold : statsAfter (xs ++ [x]) = stats_update (statsAfter xs) x := by
      simp [statsAfter, List.foldl_append]
    rw [hfold]
    constructor
    · simp only [stats_update, ih1, ih2]
      by_cases hn : xs.length < 60
      · have hgt : ¬ ((xs.drop (xs.length - 60) ++ [x]).length > 60) := by
          simp [List.length_drop]
          omega
        rw [if_neg hgt]
        have h0 : xs.length - 60 = 0 := by omega
        have h1 : (xs ++ [x]).length - 60 = 0 := by
          simp
          omega
        rw [h0, h1, List.drop_zero, List.drop_zero]
      · push_neg at hn
        have hlen : (xs.drop (xs.length - 60)).length = 60 := by
          rw [List.length_drop]
          omega
        have hgt : (xs.drop (xs.length - 60) ++ [x]).length > 60 := by
          simp [hlen]
        rw [if_pos hgt]
        obtain ⟨c, t, hct⟩ : ∃ c t, xs.drop (xs.length - 60) = c :: t := by
          cases h : xs.drop (xs.length - 60) with
          | nil =>
            rw [h] at hlen
            simp at hlen
          | cons c t => exact ⟨c, t, rfl⟩
        rw [hct]
        have herase : ((c :: t) ++ [x]).eraseIdx 0 = t ++ [x] := by
          simp [List.eraseIdx]
        rw [herase]
        have ht : t = xs.drop (xs.length - 60 + 1) := by
          have hdd := List.drop_drop 1 (xs.length - 60) xs
          rw [hct] at hdd
          simpa using hdd
        rw [ht]
        have harith : xs.length - 60 + 1 = (xs ++ [x]).length - 60 := by
          simp
          omega
        rw [harith]
        rw [List.drop_append_of_le_length
          (show (xs ++ [x]).length - 60 ≤ xs.length by simp)]
    · simp [stats_update, ih2]

/-- C8: the performance-history buffer is a bounded ring buffer of
capacity 60: after any sequence of `/stats` requests the history is
exactly the most-recent at-most-60 samples in arrival order (older
samples evicted from the front), its length is `min N 60`, the newest
sample sits at the end, and the capacity stays fixed at 60. -/
theorem c8_history_ring_buffer {α : Type} (xs : List α) (x : α) :
    (statsAfter xs).history = xs.drop (xs.length - 60) ∧
    (statsAfter xs).history.length = min xs.length 60 ∧
    (statsAfter (xs ++ [x])).history.getLast? = some x ∧
    (statsAfter xs).max_history = 60 := by
  obtain ⟨h1, h2⟩ := statsAfter_history xs
  refine ⟨h1, ?_, ?_, h2⟩
  · rw [h1, List.length_drop]
    omega
  · obtain ⟨g1, _⟩ := statsAfter_history (xs ++ [x])
    rw [g1]
    rw [List.drop_append_of_le_length
      (show (xs ++ [x]).length - 60 ≤ xs.length by simp)]
    exact List.getLast?_concat _

theorem probe_cons_fail (respond : String → LocalAttempt) (p : String)
    (l : List String) (hp : (respond p).isSuccess = false) :
    probeEndpoints respond (p :: l) = probeEndpoints respond l := by
  cases hcase : respond p with
  | success u =>
    rw [hcase] at hp
    simp [LocalAttempt.isSuccess] at hp
  | connFail => simp [probeEndpoints, hcase]
  | badStatus => simp [probeEndpoints, hcase]
  | parseFail => simp [probeEndpoints, hcase]

theorem probe_first_success (respond : String → LocalAttempt)
    (pre : List String) (e : String) (rest : List String) (t : List Char)
    (hpre : ∀ p ∈ pre, (respond p).isSuccess = false)
    (he : respond e = LocalAttempt.success t) :
    probeEndpoints respond (pre ++ e :: rest) = Except.ok t := by
  induction pre with
  | nil => simp [probeEndpoints, he]
  | cons p pre ih =>
    rw [List.cons_append,
      probe_cons_fail respond p (pre ++ e :: rest) (hpre p (by simp))]
    exact ih fun q hq => hpre q (by simp [hq])

theorem probe_all_fail (respond : String → LocalAttempt) (l : List String)
    (h : ∀ p ∈ l, (respond p).isSuccess = false) :
    probeEndpoints respond l =
      Except.error (AsrError.noLocalBackend localEndpoints) := by
  induction l with
  | nil => rfl
  | cons p l ih =>
    rw [probe_cons_fail respond p l (h p (by simp))]
    exact ih fun q hq => h q (by simp [hq])

/-- C7: local transcription probing walks the fixed endpoint list in
order and returns the text of the first candidate whose response is
accepted (HTTP success and a parsed `{text}` body); every failing
candidate — connection error, bad status or parse error — is skipped,
later candidates play no part once a success is found (the result is
fixed by the failing prefix and the first success alone), and if every
candidate fails the call fails with the error listing the endpoints
tried. -/
theorem c7_local_probe_first_success (respond : String → LocalAttempt) :
    (∀ pre e rest t, localEndpoints = pre ++ e :: rest →
        (∀ p ∈ pre, (respond p).isSuccess = false) →
        respond e = LocalAttempt.success t →
        call_local_whisper_api respond = Except.ok t) ∧
    ((∀ p ∈ localEndpoints, (respond p).isSuccess = false) →
        call_local_whisper_api respond =
          Except.error (AsrError.noLocalBackend localEndpoints)) ∧
    (∀ a : LocalAttempt, a.isSuccess = true ↔ ∃ t, a = LocalAttempt.success t) := by
  refine ⟨?_, ?_, ?_⟩
  · intro pre e rest t hdec hpre he
    unfold call_local_whisper_api
    rw [hdec]
    exact probe_first_success respond pre e rest t hpre he
  · intro h
    exact probe_all_fail respond localEndpoints h
  · intro a
    cases a <;> simp [LocalAttempt.isSuccess]

/-- Witness for C7: the first endpoint refuses the connection, the
second succeeds with text `hola`; the probe returns that text (whatever
the third endpoint would have done — here it would fail to parse). -/
theorem c7_local_probe_first_success_witness :
    call_local_whisper_api (fun p =>
      if p = "http://localhost:8000/transcribe" then LocalAttempt.connFail
      else if p = "http://localhost:5000/transcribe" then
        LocalAttempt.success (strL "hola")
      else LocalAttempt.parseFail) = Except.ok (strL "hola") :=
  (c7_local_probe_first_success _).1 ["http://localhost:8000/transcribe"]
    "http://localhost:5000/transcribe" ["http://127.0.0.1:8000/transcribe"]
    (strL "hola") rfl (by decide) rfl

theorem findSub_some_spec (pat : List Char) :
    ∀ (s : List Char) (i : Nat), findSub pat s = some i →
      startsWithL pat (s.drop i) = true ∧
      ∀ k, k < i → startsWithL pat (s.drop k) = false := by
  intro s
  induction s with
  | nil =>
    intro i h
    unfold findSub at h
    by_cases hp : pat.isEmpty = true
    · rw [if_pos hp] at h
      obtain rfl : (0 : Nat) = i := Option.some.inj h
      refine ⟨?_, fun k hk => absurd hk (by omega)⟩
      rw [List.isEmpty_iff] at hp
      subst hp
      rfl
    · rw [if_neg hp] at h
      exact absurd h (by simp)
  | cons c rest ih =>
    intro i h
    unfold findSub at h
    by_cases hs : startsWithL pat (c :: rest) = true
    · rw [if_pos hs] at h
      obtain rfl : (0 : Nat) = i := Option.some.inj h
      exact ⟨by simpa using hs, fun k hk => absurd hk (by omega)⟩
    · rw [if_neg hs] at h
      obtain ⟨j, hj, rfl⟩ : ∃ j, findSub pat rest = some j ∧ i = j + 1 := by
        cases hfind : findSub pat rest with
        | none =>
          rw [hfind] at h
          simp at h
        | some j =>
          rw [hfind] at h
          simp at h
          exact ⟨j, rfl, h.symm⟩
      obtain ⟨h1, h2⟩ := ih j hj
      refine ⟨by simpa using h1, ?_⟩
      intro k hk
      cases k with
      | zero =>
        rw [List.drop_zero]
        exact Bool.not_eq_true _ ▸ (eq_false_of_ne_true hs)
      | succ k' =>
        rw [List.drop_succ_cons]
        exact h2 k' (by omega)

theorem findSub_le_of_startsWith (pat : List Char) :
    ∀ (s : List Char) (i : Nat), startsWithL pat (s.drop i) = true →
      ∃ j, j ≤ i ∧ findSub pat s = some j := by
  intro s
  induction s with
  | nil =>
    intro i h
    rw [List.drop_nil] at h
    have hp : pat = [] := by
      cases pat with
      | nil => rfl
      | cons p ps => simp [startsWithL] at h
    exact ⟨0, Nat.zero_le i, by simp [findSub, hp]⟩
  | cons c rest ih =>
    intro i h
    by_cases hs : startsWithL pat (c :: rest) = true
    · exact ⟨0, Nat.zero_le i, by simp [findSub, hs]⟩
    · cases i with
      | zero =>
        rw [List.drop_zero] at h
        exact absurd h hs
      | succ i' =>
        rw [List.drop_succ_cons] at h
        obtain ⟨j, hji, hfind⟩ := ih i' h
        exact ⟨j + 1, by omega, by simp [findSub, hs, hfind]⟩

/-- The function `findSub` computes exactly the first occurrence index. -/
theorem findSub_first (pat s : List Char) (i : Nat)
    (h1 : startsWithL pat (s.drop i) = true)
    (h2 : ∀ k, k < i → startsWithL pat (s.drop k) = false) :
    findSub pat s = some i := by
  obtain ⟨j, hji, hfind⟩ := findSub_le_of_startsWith pat s i h1
  rcases Nat.lt_or_ge j i with hlt | hge
  · have hocc := (findSub_some_spec pat s j hfind).1
    rw [h2 j hlt] at hocc
    exact absurd hocc (by simp)
  · have hj : j = i := by omega
    rw [← hj]
    exact hfind

theorem findSub_none_of_all_false (pat s : List Char)
    (h : ∀ k, k ≤ s.length → startsWithL pat (s.drop k) = false) :
    findSub pat s = none := by
  cases hfind : findSub pat s with
  | none => rfl
  | some i =>
    have hspec := (findSub_some_spec pat s i hfind).1
    by_cases hi : i ≤ s.length
    · rw [h i hi] at hspec
      exact absurd hspec (by simp)
    · rw [List.drop_eq_nil_of_le (by omega)] at hspec
      have hlast := h s.length le_rfl
      rw [List.drop_eq_nil_of_le le_rfl] at hlast
      rw [hlast] at hspec
      exact absurd hspec (by simp)

/-- A position carrying the (non-empty) marker lies strictly inside the
string. -/
theorem marker_pos_lt_length (s : List Char) (i : Nat)
    (hocc : startsWithL gemmaMarker (s.drop i) = true) : i < s.length := by
  by_contra hge
  push_neg at hge
  rw [List.drop_eq_nil_of_le hge] at hocc
  have hnil : startsWithL gemmaMarker [] = false := by decide
  rw [hnil] at hocc
  exact absurd hocc (by simp)

theorem try_llama_cpp_cli_all_extract_none (outcomes : List ExecOutcome)
    (h : ∀ s, ExecOutcome.exitSuccess s ∈ outcomes →
      extract_model_output s = none) :
    try_llama_cpp_cli outcomes = Except.error () := by
  induction outcomes with
  | nil => rfl
  | cons o rest ih =>
    have hrest : try_llama_cpp_cli rest = Except.error () :=
      ih fun s hs => h s (by simp [hs])
    cases o with
    | spawnError => simpa [try_llama_cpp_cli] using hrest
    | exitFailure => simpa [try_llama_cpp_cli] using hrest
    | exitSuccess s =>
      have hs := h s (by simp)
      simpa [try_llama_cpp_cli, hs] using hrest

/-- C6: the stdout scraping of the primary translation path.  With the
first marker occurrence at `i`: if the first newline at or after `i`
sits at `j`, the extraction yields the trimmed text after that newline
when it is non-empty and nothing when it trims to empty; if no newline
follows the marker, or the marker does not occur at all, the extraction
yields nothing; and whenever every successfully exiting candidate's
stdout extracts to nothing, `translate` answers from the fallback
dictionary path. -/
theorem c6_marker_extraction :
    (∀ stdout : List Char,
        (∀ k, k ≤ stdout.length →
          startsWithL gemmaMarker (stdout.drop k) = false) →
        extract_model_output stdout = none) ∧
    (∀ (stdout : List Char) (i j : Nat),
        startsWithL gemmaMarker (stdout.drop i) = true →
        (∀ k, k < i → startsWithL gemmaMarker (stdout.drop k) = false) →
        i ≤ j →
        startsWithL [ '\n' ] (stdout.drop j) = true →
        (∀ k, k < j → i ≤ k → startsWithL [ '\n' ] (stdout.drop k) = false) →
        extract_model_output stdout =
          (if (rustTrim (stdout.drop (j + 1))).isEmpty then none
           else some (rustTrim (stdout.drop (j + 1))))) ∧
    (∀ (stdout : List Char) (i : Nat),
        startsWithL gemmaMarker (stdout.drop i) = true →
        (∀ k, k < i → startsWithL gemmaMarker (stdout.drop k) = false) →
        (∀ k, k ≤ stdout.length → i ≤ k →
          startsWithL [ '\n' ] (stdout.drop k) = false) →
        extract_model_output stdout = none) ∧
    (∀ (outcomes : List ExecOutcome) (cfg : GemmaConfig) (dir : Direction)
        (input : List Char),
        (rustTrim input).isEmpty = false →
        (∀ s, ExecOutcome.exitSuccess s ∈ outcomes →
          extract_model_output s = none) →
        translate cfg true (try_llama_cpp_cli outcomes) dir input =
          Except.ok (fallbackTranslate dir input)) := by
  refine ⟨?_, ?_, ?_, ?_⟩
  · intro stdout h
    unfold extract_model_output
    rw [findSub_none_of_all_false gemmaMarker stdout h]
  · intro stdout i j hocc hfirst hij hnl hnlfirst
    have hm : findSub gemmaMarker stdout = some i := findSub_first _ _ _ hocc hfirst
    have hnl2 : startsWithL [ '\n' ] ((stdout.drop i).drop (j - i)) = true := by
      rw [List.drop_drop, show i + (j - i) = j by omega]
      exact hnl
    have hnlfirst2 : ∀ k, k < j - i →
        startsWithL [ '\n' ] ((stdout.drop i).drop k) = false := by
      intro k hk
      rw [List.drop_drop]
      exact hnlfirst (i + k) (by omega) (by omega)
    have hn : findSub [ '\n' ] (stdout.drop i) = some (j - i) :=
      findSub_first _ _ _ hnl2 hnlfirst2
    unfold extract_model_output
    rw [hm]
    simp only [hn]
    rw [show i + (j - i) + 1 = j + 1 by omega]
  · intro stdout i hocc hfirst hnone
    have hm : findSub gemmaMarker stdout = some i := findSub_first _ _ _ hocc hfirst
    have hilen : i < stdout.length := marker_pos_lt_length stdout i hocc
    have hn : findSub [ '\n' ] (stdout.drop i) = none := by
      apply findSub_none_of_all_false
      intro k hk
      rw [List.length_drop] at hk
      rw [List.drop_drop]
      exact hnone (i + k) (by omega) (by omega)
    unfold extract_model_output
    rw [hm]
    simp only [hn]
  · intro outcomes cfg dir input hne hnone
    rw [try_llama_cpp_cli_all_extract_none outcomes hnone]
    unfold translate
    rw [hne]
    rfl

/-- Witness for C6: a stdout with prompt echo around the marker extracts
the trimmed text after the marker's newline, and a marker-less stdout
from the only candidate pushes `translate` onto the fallback path. -/
theorem c6_marker_extraction_witness :
    extract_model_output (strL "ab<start_of_turn>model\nHola\n") =
      some (strL "Hola") ∧
    translate ⟨"m.gguf", 2048⟩ true
        (try_llama_cpp_cli [ExecOutcome.exitSuccess (strL "garbled output")])
        Direction.EsToEn (strL "hola") = Except.ok (strL "Hello") := by
  constructor
  · rw [c6_marker_extraction.2.1 (strL "ab<start_of_turn>model\nHola\n") 2 22
      (by decide) (by decide) (by decide) (by decide) (by decide)]
    rfl
  · rw [c6_marker_extraction.2.2.2 [ExecOutcome.exitSuccess (strL "garbled output")]
      ⟨"m.gguf", 2048⟩ Direction.EsToEn (strL "hola") (by decide) ?_]
    · rfl
    · intro s hs
      simp at hs
      subst hs
      decide

end CambGemma
